import Mathlib

/-!
Verification of the disk-scheduling core of `streamlitapp.py`.

The file embeds the six sequence generators (`fcfs`, `sstf`, `scan`, `cscan`,
`look`, `clook`), the step-explanation builder (`get_seek_explanation`) and the
dispatch facade (`get_result`) as executable Lean definitions, then proves or
refutes the frozen claims about them.

Modelling conventions:
- Python integers are `Int`; absolute differences are `Int.natAbs`, so seek
  totals are `Nat` (they are sums of absolute values).
- Python `sorted(xs)` is stable ascending sort, embedded as insertion sort with
  `· ≤ ·`; `sorted(xs, reverse=True)` as insertion sort with the flipped order.
- Python `min(xs, key=k)` keeps the first element attaining the minimal key;
  embedded as a left fold that replaces the accumulator only on a strict
  decrease (`minByKey`).
- Python `list.remove(x)` removes the first occurrence, embedded as
  `List.erase`.
- The `while requests:` loop of `sstf` removes exactly one element per
  iteration, so it runs exactly `requests.length` times; the embedding
  (`sstfGo`) recurses on that iteration count, which makes it structurally
  recursive and kernel-evaluable.
- `get_result` returns `Option`: Python control falls off the end of the
  `if/elif` chain for an unrecognized policy name and returns `None`,
  embedded as `none`.
-/

/-- Sum of absolute differences of consecutive elements:
`sum(abs(s[i] - s[i+1]) for i in range(len(s) - 1))`, as computed inside each
generator of the source. -/
def total_seek : List Int → Nat
  | a :: b :: rest => (a - b).natAbs + total_seek (b :: rest)
  | _ => 0

/-- Python `sorted(l)`: ascending sort. -/
def sortAsc (l : List Int) : List Int :=
  List.insertionSort (fun a b => a ≤ b) l

/-- Python `sorted(l, reverse=True)`: descending sort. -/
def sortDesc (l : List Int) : List Int :=
  List.insertionSort (fun a b => a ≥ b) l

/-- `fcfs(requests, head)` from the source: sequence is `[head] + requests`,
total is the sum of consecutive absolute differences. -/
def fcfs (requests : List Int) (head : Int) : List Int × Nat :=
  let seek_sequence := head :: requests
  (seek_sequence, total_seek seek_sequence)

/-- Python `min(x :: xs, key)`: left fold keeping the current minimum,
replacing it only when a strictly smaller key is found, hence returning the
first element attaining the minimal key. -/
def minByKey (key : Int → Nat) (x : Int) (xs : List Int) : Int :=
  xs.foldl (fun acc y => if key y < key acc then y else acc) x

/-- The `while requests:` loop of `sstf(requests, head)`. The first argument
counts the remaining iterations: each pass of the Python loop removes exactly
one element from `requests`, so running it with iteration count
`requests.length` reproduces the loop exactly. Returns the visited cylinders
in order and the accumulated seek total. -/
def sstfGo : Nat → List Int → Int → List Int × Nat
  | fuel + 1, x :: xs, hd =>
    let closest := minByKey (fun y => (y - hd).natAbs) x xs
    let rest := sstfGo fuel ((x :: xs).erase closest) closest
    (closest :: rest.1, (hd - closest).natAbs + rest.2)
  | _, _, _ => ([], 0)

/-- `sstf(requests, head)` from the source. -/
def sstf (requests : List Int) (head : Int) : List Int × Nat :=
  let r := sstfGo requests.length requests head
  (head :: r.1, r.2)

/-- `scan(requests, head, max_cylinder)` from the source:
`[head] + right + [max_cylinder - 1] + left` with `right` the requests
`>= head` ascending and `left` the requests `< head` descending. -/
def scan (requests : List Int) (head : Int) (max_cylinder : Int) :
    List Int × Nat :=
  let left := sortDesc (requests.filter fun r => decide (r < head))
  let right := sortAsc (requests.filter fun r => decide (head ≤ r))
  let seek_sequence := head :: (right ++ (max_cylinder - 1) :: left)
  (seek_sequence, total_seek seek_sequence)

/-- `cscan(requests, head, max_cylinder)` from the source:
`[head] + right + [max_cylinder - 1, 0] + left` with both halves ascending. -/
def cscan (requests : List Int) (head : Int) (max_cylinder : Int) :
    List Int × Nat :=
  let left := sortAsc (requests.filter fun r => decide (r < head))
  let right := sortAsc (requests.filter fun r => decide (head ≤ r))
  let seek_sequence := head :: (right ++ (max_cylinder - 1) :: 0 :: left)
  (seek_sequence, total_seek seek_sequence)

/-- `look(requests, head)` from the source: `[head] + right + left` with
`right` ascending and `left` descending; no boundary cylinders. -/
def look (requests : List Int) (head : Int) : List Int × Nat :=
  let left := sortDesc (requests.filter fun r => decide (r < head))
  let right := sortAsc (requests.filter fun r => decide (head ≤ r))
  let seek_sequence := head :: (right ++ left)
  (seek_sequence, total_seek seek_sequence)

/-- `clook(requests, head)` from the source: `[head] + right + left` where,
unlike `look`, `left` is sorted ascending (line 49 has no `reverse=True`). -/
def clook (requests : List Int) (head : Int) : List Int × Nat :=
  let left := sortAsc (requests.filter fun r => decide (r < head))
  let right := sortAsc (requests.filter fun r => decide (head ≤ r))
  let seek_sequence := head :: (right ++ left)
  (seek_sequence, total_seek seek_sequence)

/-- `get_seek_explanation(path)` from the source, modelled as the list of
per-step records together with the accumulated total that the Python function
formats into its final string: for each consecutive pair it records
`"|path[i+1] - path[i]| = diff"` and adds `diff` to the running total. -/
def get_seek_explanation : List Int → List String × Nat
  | a :: b :: rest =>
    let diff := (b - a).natAbs
    let prev := get_seek_explanation (b :: rest)
    (("|" ++ toString b ++ " - " ++ toString a ++ "| = " ++ toString diff)
        :: prev.1,
      diff + prev.2)
  | _ => ([], 0)

/-- `get_result(algo, queue, head)` from the source: the `if/elif` dispatch
over the six policy names. Python control falls off the end for any other
name and the function returns `None`, modelled as `none`. `scan` and `cscan`
are called with their default `max_cylinder=200`. -/
def get_result (algo : String) (queue : List Int) (head : Int) :
    Option (List Int × Nat) :=
  if algo = "FCFS" then some (fcfs queue head)
  else if algo = "SSTF" then some (sstf queue head)
  else if algo = "SCAN" then some (scan queue head 200)
  else if algo = "CSCAN" then some (cscan queue head 200)
  else if algo = "LOOK" then some (look queue head)
  else if algo = "CLOOK" then some (clook queue head)
  else none

/-! ## Helper lemmas -/

/-- Absolute difference is symmetric: the generators sum `|s[i] - s[i+1]|`
while the explanation builder sums `|path[i+1] - path[i]|`. -/
theorem natAbs_sub_swap (a b : Int) : (a - b).natAbs = (b - a).natAbs := by
  omega

/-- The running total accumulated by the explanation builder equals the
consecutive-absolute-difference sum used by the generators. -/
theorem get_seek_explanation_snd_eq : ∀ path : List Int,
    (get_seek_explanation path).2 = total_seek path
  | [] => rfl
  | [_] => rfl
  | a :: b :: rest => by
    have ih := get_seek_explanation_snd_eq (b :: rest)
    show (b - a).natAbs + (get_seek_explanation (b :: rest)).2
        = (a - b).natAbs + total_seek (b :: rest)
    rw [ih, natAbs_sub_swap]

/-- One step of the fold underlying `minByKey`. -/
theorem minByKey_cons (k : Int → Nat) (x y : Int) (ys : List Int) :
    minByKey k x (y :: ys) = minByKey k (if k y < k x then y else x) ys := rfl

/-- `c` is the first element of `l` attaining the minimal key: everything
strictly before it has a strictly larger key, everything after has a key at
least as large.  This is exactly the behavior of Python `min` with a key. -/
def FirstMin (k : Int → Nat) (c : Int) (l : List Int) : Prop :=
  ∃ l1 l2, l = l1 ++ c :: l2 ∧ (∀ y ∈ l1, k c < k y) ∧ (∀ y ∈ l2, k c ≤ k y)

/-- A first-minimum is a member of the list. -/
theorem FirstMin.mem {k : Int → Nat} {c : Int} {l : List Int}
    (h : FirstMin k c l) : c ∈ l := by
  obtain ⟨l1, l2, rfl, -, -⟩ := h
  simp

/-- A first-minimum has minimal key among all members. -/
theorem FirstMin.le_of_mem {k : Int → Nat} {c : Int} {l : List Int}
    (h : FirstMin k c l) : ∀ y ∈ l, k c ≤ k y := by
  obtain ⟨l1, l2, rfl, h1, h2⟩ := h
  intro y hy
  rcases List.mem_append.mp hy with hy | hy
  · exact Nat.le_of_lt (h1 y hy)
  · rcases List.mem_cons.mp hy with rfl | hy
    · exact Nat.le_refl _
    · exact h2 y hy

/-- Python `min(x :: xs, key=k)` returns the first element attaining the
minimal key. -/
theorem minByKey_firstMin (k : Int → Nat) :
    ∀ (xs : List Int) (x : Int), FirstMin k (minByKey k x xs) (x :: xs)
  | [], x => ⟨[], [], rfl, by simp, by simp⟩
  | y :: ys, x => by
    rw [minByKey_cons]
    by_cases hxy : k y < k x
    · rw [if_pos hxy]
      have ihy := minByKey_firstMin k ys y
      have hle : k (minByKey k y ys) ≤ k y :=
        ihy.le_of_mem y (List.mem_cons_self y ys)
      obtain ⟨l1, l2, heq, h1, h2⟩ := ihy
      refine ⟨x :: l1, l2, by rw [List.cons_append, ← heq], ?_, h2⟩
      intro z hz
      rcases List.mem_cons.mp hz with rfl | hz
      · exact Nat.lt_of_le_of_lt hle hxy
      · exact h1 z hz
    · rw [if_neg hxy]
      have hyx : k x ≤ k y := Nat.le_of_not_lt hxy
      obtain ⟨l1, l2, heq, h1, h2⟩ := minByKey_firstMin k ys x
      cases l1 with
      | nil =>
        rw [List.nil_append] at heq
        injection heq with hx hl2
        refine ⟨[], y :: ys, ?_, by simp, ?_⟩
        · rw [List.nil_append, ← hx]
        · intro z hz
          rcases List.mem_cons.mp hz with rfl | hz
          · rw [← hx]; exact hyx
          · exact h2 z (hl2 ▸ hz)
      | cons a t =>
        rw [List.cons_append] at heq
        injection heq with hx hys
        have hma : k (minByKey k x ys) < k x := by
          have hka := h1 a (List.mem_cons_self a t)
          rw [← hx] at hka
          exact hka
        refine ⟨x :: y :: t, l2, ?_, ?_, h2⟩
        · conv_lhs => rw [hys]
          rw [List.cons_append, List.cons_append]
        · intro z hz
          rcases List.mem_cons.mp hz with rfl | hz
          · exact hma
          · rcases List.mem_cons.mp hz with rfl | hz
            · exact Nat.lt_of_lt_of_le hma hyx
            · exact h1 z (List.mem_cons_of_mem a hz)

/-- The greedy choice discipline of the SSTF loop: from head position `hd`
with pending requests `l`, the loop visits first the element of `l` that is
the first one attaining the minimal absolute distance to `hd` (`FirstMin`),
removes its first occurrence, and continues from there. -/
inductive SstfChoices : Int → List Int → List Int → Prop
  | nil (hd : Int) : SstfChoices hd [] []
  | cons (hd c : Int) (l vs : List Int) :
      FirstMin (fun y => (y - hd).natAbs) c l →
      SstfChoices c (l.erase c) vs →
      SstfChoices hd l (c :: vs)

/-- `sstfGo` on an empty request list does nothing. -/
theorem sstfGo_nil (fuel : Nat) (hd : Int) : sstfGo fuel [] hd = ([], 0) := by
  cases fuel <;> rfl

/-- `sstfGo` with no iterations left does nothing. -/
theorem sstfGo_zero (l : List Int) (hd : Int) : sstfGo 0 l hd = ([], 0) := by
  cases l <;> rfl

/-- Unfolding of one iteration of the SSTF loop. -/
theorem sstfGo_succ (fuel : Nat) (x : Int) (xs : List Int) (hd : Int) :
    sstfGo (fuel + 1) (x :: xs) hd =
      (minByKey (fun y => (y - hd).natAbs) x xs ::
          (sstfGo fuel
            ((x :: xs).erase (minByKey (fun y => (y - hd).natAbs) x xs))
            (minByKey (fun y => (y - hd).natAbs) x xs)).1,
        (hd - minByKey (fun y => (y - hd).natAbs) x xs).natAbs +
          (sstfGo fuel
            ((x :: xs).erase (minByKey (fun y => (y - hd).natAbs) x xs))
            (minByKey (fun y => (y - hd).natAbs) x xs)).2) := rfl

/-- Run with enough iterations, the SSTF loop performs exactly the greedy
first-minimum choice discipline. -/
theorem sstfGo_choices : ∀ (fuel : Nat) (l : List Int) (hd : Int),
    l.length ≤ fuel → SstfChoices hd l (sstfGo fuel l hd).1
  | fuel, [], hd, _ => by
    rw [sstfGo_nil]
    exact SstfChoices.nil hd
  | 0, x :: xs, hd, h => absurd h (by simp)
  | fuel + 1, x :: xs, hd, h => by
    rw [sstfGo_succ]
    have hfm := minByKey_firstMin (fun y => (y - hd).natAbs) xs x
    have hlen :
        ((x :: xs).erase (minByKey (fun y => (y - hd).natAbs) x xs)).length
          ≤ fuel := by
      rw [List.length_erase_of_mem hfm.mem]
      simp only [List.length_cons] at h ⊢
      omega
    exact SstfChoices.cons hd _ _ _ hfm (sstfGo_choices fuel _ _ hlen)

/-- Run with enough iterations, the SSTF loop visits a permutation of the
pending requests. -/
theorem sstfGo_perm : ∀ (fuel : Nat) (l : List Int) (hd : Int),
    l.length ≤ fuel → ((sstfGo fuel l hd).1).Perm l
  | fuel, [], hd, _ => by
    rw [sstfGo_nil]
  | 0, x :: xs, hd, h => absurd h (by simp)
  | fuel + 1, x :: xs, hd, h => by
    rw [sstfGo_succ]
    have hfm := minByKey_firstMin (fun y => (y - hd).natAbs) xs x
    have hlen :
        ((x :: xs).erase (minByKey (fun y => (y - hd).natAbs) x xs)).length
          ≤ fuel := by
      rw [List.length_erase_of_mem hfm.mem]
      simp only [List.length_cons] at h ⊢
      omega
    exact ((sstfGo_perm fuel _ _ hlen).cons _).trans
      (List.perm_cons_erase hfm.mem).symm

/-- The total accumulated by the SSTF loop equals the consecutive-difference
sum over the sequence it produces, prefixed with the starting head. -/
theorem sstfGo_total : ∀ (fuel : Nat) (l : List Int) (hd : Int),
    (sstfGo fuel l hd).2 = total_seek (hd :: (sstfGo fuel l hd).1)
  | fuel, [], hd => by rw [sstfGo_nil]; rfl
  | 0, x :: xs, hd => by rw [sstfGo_zero]; rfl
  | fuel + 1, x :: xs, hd => by
    rw [sstfGo_succ]
    have ih := sstfGo_total fuel
      ((x :: xs).erase (minByKey (fun y => (y - hd).natAbs) x xs))
      (minByKey (fun y => (y - hd).natAbs) x xs)
    show (hd - minByKey (fun y => (y - hd).natAbs) x xs).natAbs +
        (sstfGo fuel
          ((x :: xs).erase (minByKey (fun y => (y - hd).natAbs) x xs))
          (minByKey (fun y => (y - hd).natAbs) x xs)).2
      = (hd - minByKey (fun y => (y - hd).natAbs) x xs).natAbs +
        total_seek (minByKey (fun y => (y - hd).natAbs) x xs ::
          (sstfGo fuel
            ((x :: xs).erase (minByKey (fun y => (y - hd).natAbs) x xs))
            (minByKey (fun y => (y - hd).natAbs) x xs)).1)
    rw [ih]

/-- `sortAsc` permutes its input. -/
theorem sortAsc_perm (l : List Int) : (sortAsc l).Perm l :=
  List.perm_insertionSort _ l

/-- `sortAsc` sorts ascending. -/
theorem sortAsc_sorted (l : List Int) :
    (sortAsc l).Sorted (fun a b : Int => a ≤ b) :=
  List.sorted_insertionSort _ l

/-- `sortDesc` permutes its input. -/
theorem sortDesc_perm (l : List Int) : (sortDesc l).Perm l :=
  List.perm_insertionSort _ l

/-- `sortDesc` sorts descending. -/
theorem sortDesc_sorted (l : List Int) :
    (sortDesc l).Sorted (fun a b : Int => a ≥ b) :=
  List.sorted_insertionSort _ l

/-- Descending sort is the reverse of ascending sort (on integers the sorted
arrangements of a multiset are unique). -/
theorem sortDesc_eq_reverse_sortAsc (l : List Int) :
    sortDesc l = (sortAsc l).reverse := by
  apply List.eq_of_perm_of_sorted (r := fun a b : Int => a ≥ b)
  · exact (sortDesc_perm l).trans
      ((sortAsc_perm l).symm.trans (List.reverse_perm (sortAsc l)).symm)
  · exact sortDesc_sorted l
  · exact List.pairwise_reverse.mpr
      ((sortAsc_sorted l).imp fun hab => ge_iff_le.mpr hab)

/-! ## Claim theorems -/

/-- Claim C1, counterexample: with an empty request queue and head 53, `scan`
does NOT return the sequence `[53]` with total cost 0 (it returns
`[53, 199]` with cost 146, because the boundary cylinder is inserted even
when no requests are pending). -/
theorem C1_counterexample :
    ¬ ((scan [] 53 200).1 = [(53 : Int)] ∧ (scan [] 53 200).2 = 0) := by
  decide

/-- Claim C1, amended: with an empty request queue, `fcfs`, `sstf`, `look`
and `clook` return `([head], 0)`, but `scan` returns
`[head, max_cylinder - 1]` with cost `|head - (max_cylinder - 1)|` and
`cscan` returns `[head, max_cylinder - 1, 0]` with cost
`|head - (max_cylinder - 1)| + |max_cylinder - 1|`: both still insert their
boundary cylinders. -/
theorem C1_amended (head maxc : Int) :
    fcfs [] head = ([head], 0) ∧
    sstf [] head = ([head], 0) ∧
    look [] head = ([head], 0) ∧
    clook [] head = ([head], 0) ∧
    scan [] head maxc = ([head, maxc - 1], (head - (maxc - 1)).natAbs) ∧
    cscan [] head maxc
      = ([head, maxc - 1, 0],
          (head - (maxc - 1)).natAbs + (maxc - 1).natAbs) := by
  refine ⟨rfl, rfl, rfl, rfl, rfl, ?_⟩
  show (([head, maxc - 1, 0] : List Int),
      (head - (maxc - 1)).natAbs + ((maxc - 1 - 0).natAbs + 0))
    = ([head, maxc - 1, 0], (head - (maxc - 1)).natAbs + (maxc - 1).natAbs)
  have h0 : (maxc - 1 - 0).natAbs = (maxc - 1).natAbs := by omega
  rw [h0, Nat.add_zero]

/-- Claim C2, counterexample: with head 53 and requests `[56, 50]`, the two
requests are at equal distance 3 from the head and 50 is the smaller-valued
cylinder, yet `sstf` visits 56 first (Python `min` keeps the first element
found, not the smaller value). -/
theorem C2_counterexample :
    ((56 : Int) - 53).natAbs = ((50 : Int) - 53).natAbs ∧
      (50 : Int) < 56 ∧ (sstf [56, 50] 53).1 = [53, 56, 50] := by
  decide

/-- Claim C2, amended: at every step the next visited cylinder is one of the
remaining requests with the smallest absolute distance from the current head,
but ties are broken by the earliest position in the remaining request list
(the first element attaining the minimum), not by the smaller cylinder
value.  `SstfChoices` states exactly this discipline for the whole visit
sequence. -/
theorem C2_amended (requests : List Int) (head : Int) :
    SstfChoices head requests ((sstf requests head).1.tail) :=
  sstfGo_choices requests.length requests head (Nat.le_refl _)

/-- Claim C3, counterexample: `look` and `clook` differ on requests
`[10, 20]` with head 53: `look` returns `([53, 20, 10], 43)` while `clook`
returns `([53, 10, 20], 53)` — different sequence and different cost. -/
theorem C3_counterexample : look [10, 20] 53 ≠ clook [10, 20] 53 := by
  decide

/-- Claim C3, amended: `look` and `clook` are not identical.  Both visit the
at-or-above requests in ascending order with no boundary insertion, but
`look` visits the below-head requests in descending order while `clook`
visits them in ascending order, so `clook`'s sequence is `look`'s with the
below-head segment reversed; the two sequences are permutations of each
other, and the totals differ in general. -/
theorem C3_amended (requests : List Int) (head : Int) :
    ∃ above below : List Int,
      above.Perm (requests.filter fun r => decide (head ≤ r)) ∧
      above.Sorted (fun a b : Int => a ≤ b) ∧
      below.Perm (requests.filter fun r => decide (r < head)) ∧
      below.Sorted (fun a b : Int => a ≤ b) ∧
      (look requests head).1 = head :: (above ++ below.reverse) ∧
      (clook requests head).1 = head :: (above ++ below) ∧
      ((look requests head).1).Perm ((clook requests head).1) := by
  refine ⟨sortAsc (requests.filter fun r => decide (head ≤ r)),
    sortAsc (requests.filter fun r => decide (r < head)),
    sortAsc_perm _, sortAsc_sorted _, sortAsc_perm _, sortAsc_sorted _,
    ?_, rfl, ?_⟩
  · show head :: (sortAsc (requests.filter fun r => decide (head ≤ r)) ++
        sortDesc (requests.filter fun r => decide (r < head)))
      = head :: (sortAsc (requests.filter fun r => decide (head ≤ r)) ++
        (sortAsc (requests.filter fun r => decide (r < head))).reverse)
    rw [sortDesc_eq_reverse_sortAsc]
  · show List.Perm
      (head :: (sortAsc (requests.filter fun r => decide (head ≤ r)) ++
        sortDesc (requests.filter fun r => decide (r < head))))
      (head :: (sortAsc (requests.filter fun r => decide (head ≤ r)) ++
        sortAsc (requests.filter fun r => decide (r < head))))
    rw [sortDesc_eq_reverse_sortAsc]
    exact (List.Perm.append_left _
      (List.reverse_perm (sortAsc (requests.filter fun r =>
        decide (r < head))))).cons head

/-- Claim C4: the source's `get_result` does NOT fail loudly on an
unrecognized policy name — Python control falls off the end of the `if/elif`
chain and the function silently returns `None` (modelled as `none`) for any
name other than the six recognized ones.  The spec itself brands this a
defect of the original; the claim describes the intended corrected behavior,
so this is a code bug, witnessed here. -/
theorem C4_unknown_policy_returns_none (algo : String) (queue : List Int)
    (head : Int) (h1 : algo ≠ "FCFS") (h2 : algo ≠ "SSTF")
    (h3 : algo ≠ "SCAN") (h4 : algo ≠ "CSCAN") (h5 : algo ≠ "LOOK")
    (h6 : algo ≠ "CLOOK") : get_result algo queue head = none := by
  simp [get_result, h1, h2, h3, h4, h5, h6]

/-- Claim C4, witness: the unrecognized policy name "MLFQ" silently yields
`none`. -/
theorem C4_unknown_policy_witness : get_result "MLFQ" [98, 183] 53 = none :=
  C4_unknown_policy_returns_none "MLFQ" [98, 183] 53 (by decide) (by decide)
    (by decide) (by decide) (by decide) (by decide)

/-- Claim C5: for every generator and every input, the total returned by the
generator equals the sum of the per-step absolute differences recorded by the
step-explanation builder over the generator's own sequence. -/
theorem C5_single_source_of_truth (requests : List Int) (head maxc : Int) :
    (fcfs requests head).2 = (get_seek_explanation (fcfs requests head).1).2 ∧
    (sstf requests head).2 = (get_seek_explanation (sstf requests head).1).2 ∧
    (scan requests head maxc).2
      = (get_seek_explanation (scan requests head maxc).1).2 ∧
    (cscan requests head maxc).2
      = (get_seek_explanation (cscan requests head maxc).1).2 ∧
    (look requests head).2 = (get_seek_explanation (look requests head).1).2 ∧
    (clook requests head).2
      = (get_seek_explanation (clook requests head).1).2 := by
  refine ⟨?_, ?_, ?_, ?_, ?_, ?_⟩ <;> rw [get_seek_explanation_snd_eq]
  · rfl
  · exact sstfGo_total requests.length requests head
  · rfl
  · rfl
  · rfl
  · rfl

/-- Claim C6: the SCAN sequence is the head, then the at-or-above requests in
ascending order, then the single top boundary cylinder `max_cylinder - 1`
between the two groups, then the below-head requests in descending order. -/
theorem C6_scan_structure (requests : List Int) (head maxc : Int) :
    ∃ above below : List Int,
      above.Perm (requests.filter fun r => decide (head ≤ r)) ∧
      above.Sorted (fun a b : Int => a ≤ b) ∧
      below.Perm (requests.filter fun r => decide (r < head)) ∧
      below.Sorted (fun a b : Int => a ≥ b) ∧
      (scan requests head maxc).1 = head :: (above ++ (maxc - 1) :: below) :=
  ⟨sortAsc (requests.filter fun r => decide (head ≤ r)),
    sortDesc (requests.filter fun r => decide (r < head)),
    sortAsc_perm _, sortAsc_sorted _, sortDesc_perm _, sortDesc_sorted _, rfl⟩

/-- Claim C7: the CSCAN sequence is the head, then the at-or-above requests
ascending, then the top boundary `max_cylinder - 1` immediately followed by
the bottom boundary `0`, then the below-head requests ascending. -/
theorem C7_cscan_structure (requests : List Int) (head maxc : Int) :
    ∃ above below : List Int,
      above.Perm (requests.filter fun r => decide (head ≤ r)) ∧
      above.Sorted (fun a b : Int => a ≤ b) ∧
      below.Perm (requests.filter fun r => decide (r < head)) ∧
      below.Sorted (fun a b : Int => a ≤ b) ∧
      (cscan requests head maxc).1
        = head :: (above ++ (maxc - 1) :: 0 :: below) :=
  ⟨sortAsc (requests.filter fun r => decide (head ≤ r)),
    sortAsc (requests.filter fun r => decide (r < head)),
    sortAsc_perm _, sortAsc_sorted _, sortAsc_perm _, sortAsc_sorted _, rfl⟩

/-- Claim C8: FCFS preserves submission order — the visit part of the
sequence is exactly the request list — and on the spec's example input
(requests `[98,183,37,122,14,124,65,67]`, head 53) it returns the stated
sequence with total cost 640. -/
theorem C8_fcfs_order (requests : List Int) (head : Int) :
    (fcfs requests head).1.tail = requests ∧
    (fcfs requests head).1 = head :: requests ∧
    fcfs [98, 183, 37, 122, 14, 124, 65, 67] 53
      = ([53, 98, 183, 37, 122, 14, 124, 65, 67], 640) :=
  ⟨rfl, rfl, by decide⟩

/-- Claim C9: for every policy and every input, the returned sequence is
non-empty and its first element is the head position. -/
theorem C9_sequence_starts_at_head (requests : List Int) (head maxc : Int) :
    (fcfs requests head).1 ≠ [] ∧ (fcfs requests head).1.head? = some head ∧
    (sstf requests head).1 ≠ [] ∧ (sstf requests head).1.head? = some head ∧
    (scan requests head maxc).1 ≠ []
      ∧ (scan requests head maxc).1.head? = some head ∧
    (cscan requests head maxc).1 ≠ []
      ∧ (cscan requests head maxc).1.head? = some head ∧
    (look requests head).1 ≠ [] ∧ (look requests head).1.head? = some head ∧
    (clook requests head).1 ≠ []
      ∧ (clook requests head).1.head? = some head :=
  ⟨List.cons_ne_nil _ _, rfl, List.cons_ne_nil _ _, rfl,
    List.cons_ne_nil _ _, rfl, List.cons_ne_nil _ _, rfl,
    List.cons_ne_nil _ _, rfl, List.cons_ne_nil _ _, rfl⟩

/-- Claim C10: the SSTF loop terminates after exactly `requests.length`
iterations — the produced sequence has length `requests.length + 1` — and
the visit part of the sequence is a permutation of the input requests,
multiplicity included. -/
theorem C10_sstf_termination_perm (requests : List Int) (head : Int) :
    (sstf requests head).1.length = requests.length + 1 ∧
    ((sstf requests head).1.tail).Perm requests := by
  have hp := sstfGo_perm requests.length requests head (Nat.le_refl _)
  refine ⟨?_, hp⟩
  show (sstfGo requests.length requests head).1.length + 1
    = requests.length + 1
  rw [hp.length_eq]
